import Mathlib

/-!
# Meal-Finder: the `Meal` component (`src/components/Meal.jsx`)

A shallow embedding of the component's request controller (`getMeal`,
`searchMeal`), its ingredient extractor (`getIngredients`) and its view
(the JSX returned by `Meal`), followed by the properties proved about them.

Modelling conventions.

* A JavaScript string is a Lean `String`.  Every character the code inspects
  (`trim`'s white space, the separator `"v="`) lies in the Basic Multilingual
  Plane, so working on code points instead of UTF-16 code units does not change
  any result.
* The values read from a meal record are those TheMealDB's JSON delivers for
  the consumed fields: a string or `null`; a key that is missing reads as
  `undefined`.
* React state is an explicit record; every `setX(v)` is a field update.  An
  asynchronous handler is modelled by its state when it has run to completion,
  with the outcome of its single `fetch` given as an argument and the URLs it
  requested returned next to the final state.
-/

namespace MealFinder

/-! ## JavaScript values and strings -/

/-- The value of a property of a meal record: missing, `null`, or a string. -/
inductive JSVal where
  | undefined
  | null
  | str (s : String)
  deriving DecidableEq, Repr

/-- JavaScript truthiness (`ToBoolean`): `undefined`, `null` and `""` are falsy. -/
def JSVal.truthy : JSVal → Bool
  | .undefined => false
  | .null => false
  | .str s => s != ""

/-- JavaScript `ToString`, as applied by a template literal or by `+` with a string. -/
def JSVal.toStr : JSVal → String
  | .undefined => "undefined"
  | .null => "null"
  | .str s => s

/-- The characters `String.prototype.trim` strips: ECMAScript `WhiteSpace`
(TAB, VT, FF, ZWNBSP and the Unicode space separators) and `LineTerminator`
(LF, CR, LS, PS). -/
def isTrimChar (c : Char) : Bool :=
  let n := c.toNat
  n == 0x9 || n == 0xA || n == 0xB || n == 0xC || n == 0xD || n == 0x20 ||
  n == 0xA0 || n == 0x1680 || (0x2000 ≤ n && n ≤ 0x200A) ||
  n == 0x2028 || n == 0x2029 || n == 0x202F || n == 0x205F || n == 0x3000 ||
  n == 0xFEFF

/-- Strip the trimmable characters from the end of a character list. -/
def trimEnd (cs : List Char) : List Char :=
  (cs.reverse.dropWhile isTrimChar).reverse

/-- The method `String.prototype.trim`. -/
def jsTrim (s : String) : String :=
  ⟨trimEnd (s.data.dropWhile isTrimChar)⟩

/-! ## Meal records -/

/-- A meal record as parsed from the API's JSON: its own properties, by key. -/
abbrev Meal := List (String × JSVal)

/-- Property read `meal[key]`: the value stored under `key`, else `undefined`. -/
def getProp (meal : Meal) (key : String) : JSVal :=
  match meal.lookup key with
  | some v => v
  | none => .undefined

/-- The key built by the template literal that appends the number `i` to `name`. -/
def slotKey (name : String) (i : Nat) : String :=
  name ++ toString i

/-- The body of the `for` loop of `getIngredients`, lines 65-71, from counter `i`
on: while `i <= 20`, read slot `i`, push onto `items` when the guard holds, and
go on with `i + 1`. -/
def getIngredientsLoop (meal : Meal) (i : Nat) (items : List String) : List String :=
  if i ≤ 20 then
    let ing := getProp meal (slotKey "strIngredient" i)
    let measure := getProp meal (slotKey "strMeasure" i)
    if ing.truthy && (jsTrim ing.toStr != "") then
      getIngredientsLoop meal (i + 1) (items ++ [measure.toStr ++ " " ++ ing.toStr])
    else
      getIngredientsLoop meal (i + 1) items
  else
    items
termination_by 21 - i

/-- The function `getIngredients`, lines 63-73: `items = []`, the loop from `i = 1`. -/
def getIngredients (meal : Meal) : List String :=
  getIngredientsLoop meal 1 []

/-- What the specification lets slot `i` contribute: when the slot's ingredient
is present and not blank after trimming, the measure (as JavaScript renders it
in a string), a space, and the ingredient; otherwise nothing. -/
def slotEntrySpec (meal : Meal) (i : Nat) : Option String :=
  match getProp meal (slotKey "strIngredient" i) with
  | .str ing =>
    if jsTrim ing = "" then none
    else some ((getProp meal (slotKey "strMeasure" i)).toStr ++ " " ++ ing)
  | _ => none

/-- The specification of the ingredient extractor: walk the slots 1..20 in
ascending order and keep what each contributes. -/
def extractIngredientsSpec (meal : Meal) : List String :=
  (List.range' 1 20).filterMap (slotEntrySpec meal)

/-! ## Component state and the outcome of a request -/

/-- The state variable `meal`: `null` (initially, and after an error), a meal
record, or `undefined` (the first element of an empty list). -/
inductive MealVal where
  | null
  | undefined
  | obj (m : Meal)
  deriving DecidableEq, Repr

/-- The four `useState` cells of the component, lines 4-7. -/
structure UIState where
  meal : MealVal
  search : String
  loading : Bool
  error : String
  deriving DecidableEq, Repr

/-- The initial values passed to `useState`. -/
def initialState : UIState :=
  { meal := .null, search := "", loading := false, error := "" }

/-- The property `meals` of a response body: missing, `null`, or a list of meal
records (the API's interface is `{ meals: [Meal] | null }`). -/
inductive MealsField where
  | undefined
  | null
  | list (ms : List Meal)
  deriving DecidableEq, Repr

/-- A parsed response body `data`. -/
structure Body where
  meals : MealsField
  deriving DecidableEq, Repr

/-- How `await fetch(url)` followed by `await res.json()` can turn out: the
`fetch` promise rejects (transport failure), or it resolves to a response with
the flag `res.ok` whose `json()` either rejects (`none`) or yields a body. -/
inductive FetchOutcome where
  | rejected
  | resolved (ok : Bool) (json : Option Body)
  deriving DecidableEq, Repr

/-- JavaScript truthiness of `data.meals`: an array, even an empty one, is truthy. -/
def MealsField.truthy : MealsField → Bool
  | .list _ => true
  | _ => false

/-- The expression `data.meals[0]`: indexing `undefined` or `null` throws a
`TypeError` (`none`); an empty array yields `undefined`. -/
def MealsField.first : MealsField → Option MealVal
  | .undefined => none
  | .null => none
  | .list [] => some .undefined
  | .list (m :: _) => some (.obj m)

/-- Line 9. -/
def API_URL : String := "https://www.themealdb.com/api/json/v1/1"

/-! ## Request controller -/

/-- The `try` block of `getMeal`, lines 14-19.  `Except.error` is a thrown
exception and carries the state reached when it was thrown. -/
def getMealTry (r : FetchOutcome) (s : UIState) : Except UIState UIState :=
  let s := { s with loading := true }
  let s := { s with error := "" }
  match r with
  | .rejected => .error s
  | .resolved ok json =>
    if !ok then .error s
    else
      match json with
      | none => .error s
      | some data =>
        match data.meals.first with
        | none => .error s
        | some m => .ok { s with meal := m }

/-- The handler `getMeal`, lines 12-27, run to completion: the final state and
the URLs requested. -/
def getMeal (r : FetchOutcome) (s : UIState) : UIState × List String :=
  let s :=
    match getMealTry r s with
    | .ok s => s
    | .error s =>
      let s := { s with error := "Could not fetch a random meal. Please try again." }
      { s with meal := .null }
  ({ s with loading := false }, [API_URL ++ "/random.php"])

/-- The `try` block of `searchMeal`, lines 36-46. -/
def searchMealTry (r : FetchOutcome) (s : UIState) : Except UIState UIState :=
  let s := { s with loading := true }
  let s := { s with error := "" }
  match r with
  | .rejected => .error s
  | .resolved ok json =>
    if !ok then .error s
    else
      match json with
      | none => .error s
      | some data =>
        if !data.meals.truthy then
          let s := { s with error := "No meals found for that name." }
          .ok { s with meal := .null }
        else
          match data.meals.first with
          | none => .error s
          | some m => .ok { s with meal := m }

/-- The handler `searchMeal`, lines 30-55, run to completion: the final state
and the URLs requested. -/
def searchMeal (r : FetchOutcome) (s : UIState) : UIState × List String :=
  if jsTrim s.search == "" then
    ({ s with error := "Please enter a meal name." }, [])
  else
    let url := API_URL ++ "/search.php?s=" ++ s.search
    let s :=
      match searchMealTry r s with
      | .ok s => s
      | .error s =>
        let s := { s with error := "Something went wrong while searching. Try again." }
        { s with meal := .null }
    let s := { s with loading := false }
    ({ s with search := "" }, [url])

/-- The two request operations of the component. -/
inductive Operation where
  | random
  | search
  deriving DecidableEq, Repr

/-- The state in which an operation ends. -/
def runOp (op : Operation) (r : FetchOutcome) (s : UIState) : UIState :=
  match op with
  | .random => (getMeal r s).1
  | .search => (searchMeal r s).1

/-- The three error kinds the specification names. -/
inductive ErrorKind where
  | emptyQuery
  | requestFailure
  | emptyResult
  deriving DecidableEq, Repr

/-- The error kind of the specification's taxonomy an operation runs into, if
any: a search with a blank query is an empty-query validation error; a rejected
`fetch` or a non-success status is a transport/HTTP-status failure; a successful
search whose body has no `meals` list is an empty result. -/
def errorKind (op : Operation) (r : FetchOutcome) (s : UIState) : Option ErrorKind :=
  match op, r with
  | .random, .rejected => some .requestFailure
  | .random, .resolved false _ => some .requestFailure
  | .random, .resolved true _ => none
  | .search, r =>
    if jsTrim s.search = "" then some .emptyQuery
    else
      match r with
      | .rejected => some .requestFailure
      | .resolved false _ => some .requestFailure
      | .resolved true (some ⟨.null⟩) => some .emptyResult
      | .resolved true (some ⟨.undefined⟩) => some .emptyResult
      | .resolved true _ => none

/-- The message the code shows for an error kind of an operation. -/
def errorMessageOf (op : Operation) (k : ErrorKind) : String :=
  match k, op with
  | .emptyQuery, _ => "Please enter a meal name."
  | .emptyResult, _ => "No meals found for that name."
  | .requestFailure, .random => "Could not fetch a random meal. Please try again."
  | .requestFailure, .search => "Something went wrong while searching. Try again."

/-! ## View -/

/-- One scan of `String.prototype.split` for a non-empty separator, left to
right over the characters not yet consumed: `skip` characters of a separator
just matched are still to be passed over, `seg` holds the current piece in
reverse. -/
def splitGo (sep : List Char) : Nat → List Char → List Char → List (List Char)
  | _, [], seg => [seg.reverse]
  | skip + 1, _ :: rest, seg => splitGo sep skip rest seg
  | 0, c :: rest, seg =>
    if sep.isPrefixOf (c :: rest) then seg.reverse :: splitGo sep (sep.length - 1) rest []
    else splitGo sep 0 rest (c :: seg)

/-- The method `String.prototype.split` with a string separator: the pieces
between the successive non-overlapping occurrences of `sep`, found left to
right; an empty separator splits between all characters. -/
def jsSplit (s sep : String) : List String :=
  if sep.data.isEmpty then s.data.map String.singleton
  else (splitGo sep.data 0 s.data []).map String.mk

/-- The expression `meal.strYoutube.split("v=")[1]`, for a string `youtube`. -/
def playerId (youtube : String) : JSVal :=
  match (jsSplit youtube "v=")[1]? with
  | some id => .str id
  | none => .undefined

/-- The `src` of the embedded player, lines 159-161. -/
def embedSrc (youtube : String) : String :=
  "https://www.youtube.com/embed/" ++ (playerId youtube).toStr

/-- The block rendered for a meal, lines 117-169. -/
structure MealBlock where
  name : JSVal
  thumb : JSVal
  ingredients : List String
  instructions : JSVal
  videoSrc : Option String
  deriving DecidableEq, Repr

/-- The state-dependent part of the markup, lines 91-170. -/
structure View where
  searchValue : String
  loadingText : Option String
  errorText : Option String
  mealBlock : Option MealBlock
  deriving DecidableEq, Repr

/-- The meal block for a meal record, lines 117-169. -/
def renderMeal (m : Meal) : MealBlock :=
  { name := getProp m "strMeal"
    thumb := getProp m "strMealThumb"
    ingredients := getIngredients m
    instructions := getProp m "strInstructions"
    videoSrc :=
      if (getProp m "strYoutube").truthy then some (embedSrc (getProp m "strYoutube").toStr)
      else none }

/-- The component's output for a state, lines 82-183: a falsy operand of `&&`
renders nothing. -/
def render (s : UIState) : View :=
  { searchValue := s.search
    loadingText := if s.loading then some "Fetching meal..." else none
    errorText := if s.error != "" then some s.error else none
    mealBlock :=
      if !s.loading then
        match s.meal with
        | .obj m => some (renderMeal m)
        | _ => none
      else none }

/-! ## Ingredient extractor -/

theorem jsTrim_empty : jsTrim "" = "" := by decide

/-- The guard of line 68 holds exactly when the specification lets the slot
contribute. -/
theorem loop_guard (meal : Meal) (i : Nat) :
    (if ((getProp meal (slotKey "strIngredient" i)).truthy &&
          (jsTrim (getProp meal (slotKey "strIngredient" i)).toStr != "")) = true
      then [(getProp meal (slotKey "strMeasure" i)).toStr ++ " " ++
              (getProp meal (slotKey "strIngredient" i)).toStr]
      else []) = (slotEntrySpec meal i).toList := by
  unfold slotEntrySpec
  cases h : getProp meal (slotKey "strIngredient" i) with
  | undefined => simp [JSVal.truthy]
  | null => simp [JSVal.truthy]
  | str ing =>
    by_cases hb : jsTrim ing = ""
    · simp [JSVal.truthy, JSVal.toStr, hb]
    · have hne : ing ≠ "" := by
        intro h0
        exact hb (by rw [h0]; exact jsTrim_empty)
      simp [JSVal.truthy, JSVal.toStr, hb, hne]

/-- One iteration of the loop, in terms of what the slot contributes. -/
theorem loop_step (meal : Meal) (i : Nat) (items : List String) (hi : i ≤ 20) :
    getIngredientsLoop meal i items =
      getIngredientsLoop meal (i + 1) (items ++ (slotEntrySpec meal i).toList) := by
  rw [getIngredientsLoop, if_pos hi, ← loop_guard]
  by_cases hg : ((getProp meal (slotKey "strIngredient" i)).truthy &&
      (jsTrim (getProp meal (slotKey "strIngredient" i)).toStr != "")) = true
  · simp only [hg, if_true]
  · simp only [hg, if_false, List.append_nil]
    simp

/-- The loop leaves the items already collected in place and appends the
contributions of the remaining slots in ascending order. -/
theorem loop_eq (meal : Meal) :
    ∀ (n i : Nat) (items : List String), i + n = 21 →
      getIngredientsLoop meal i items =
        items ++ (List.range' i n).filterMap (slotEntrySpec meal) := by
  intro n
  induction n with
  | zero =>
    intro i items h
    have hi : ¬ i ≤ 20 := by omega
    rw [getIngredientsLoop, if_neg hi]
    simp
  | succ n ih =>
    intro i items h
    have hi : i ≤ 20 := by omega
    rw [loop_step meal i items hi, ih (i + 1) _ (by omega), List.range'_succ]
    cases hs : slotEntrySpec meal i <;> simp [List.filterMap_cons, hs]

/-- A string trims to the empty string exactly when all its characters are
white space or line terminators. -/
theorem jsTrim_eq_empty_iff (s : String) :
    jsTrim s = "" ↔ ∀ c ∈ s.data, isTrimChar c = true := by
  have h1 : jsTrim s = "" ↔ trimEnd (s.data.dropWhile isTrimChar) = [] := by
    unfold jsTrim
    constructor
    · intro h
      exact congrArg String.data h
    · intro h
      rw [h]
  rw [h1]
  unfold trimEnd
  rw [List.reverse_eq_nil_iff, List.dropWhile_eq_nil_iff]
  constructor
  · intro h
    have hnil : s.data.dropWhile isTrimChar = [] := by
      cases hd : s.data.dropWhile isTrimChar with
      | nil => rfl
      | cons c cs =>
        have hc : isTrimChar c = true := by
          apply h
          rw [hd]
          simp
        have hhead := List.head_dropWhile_not isTrimChar s.data (by rw [hd]; simp)
        simp only [hd, List.head_cons] at hhead
        rw [hc] at hhead
        exact absurd hhead (by decide)
    exact List.dropWhile_eq_nil_iff.mp hnil
  · intro h c hc
    rw [List.dropWhile_eq_nil_iff.mpr h] at hc
    simp at hc

/-- C1: for every meal record `getIngredients` returns exactly the list obtained
by walking the slots 1..20 in ascending order and emitting, for each slot whose
ingredient is a string that is not blank after trimming, the measure, a space
and the ingredient; a slot whose ingredient is missing, `null`, empty or made of
white space only contributes nothing.  The measure is rendered as JavaScript
renders it in a string (a missing one as `undefined`, `null` as `null`).  The
record of the specification's example yields `["1 tsp Salt", "2 Egg"]`. -/
theorem getIngredients_eq_extractIngredientsSpec :
    (∀ meal : Meal, getIngredients meal = extractIngredientsSpec meal) ∧
    (∀ (meal : Meal) (i : Nat),
      (slotEntrySpec meal i = none ↔
        (getProp meal (slotKey "strIngredient" i) = .undefined ∨
         getProp meal (slotKey "strIngredient" i) = .null ∨
         ∃ ing, getProp meal (slotKey "strIngredient" i) = .str ing ∧
           ∀ c ∈ ing.data, isTrimChar c = true)) ∧
      (∀ e, slotEntrySpec meal i = some e →
        ∃ ing, getProp meal (slotKey "strIngredient" i) = .str ing ∧
          e = (getProp meal (slotKey "strMeasure" i)).toStr ++ " " ++ ing)) ∧
    getIngredients
        [("strIngredient1", .str "Salt"), ("strMeasure1", .str "1 tsp"),
         ("strIngredient2", .str ""), ("strIngredient3", .str "Egg"),
         ("strMeasure3", .str "2")] = ["1 tsp Salt", "2 Egg"] := by
  have hmain : ∀ meal : Meal, getIngredients meal = extractIngredientsSpec meal := by
    intro meal
    have h := loop_eq meal 20 1 [] rfl
    simpa [getIngredients, extractIngredientsSpec] using h
  refine ⟨hmain, ?_, ?_⟩
  · intro meal i
    unfold slotEntrySpec
    cases h : getProp meal (slotKey "strIngredient" i) with
    | undefined => simp
    | null => simp
    | str ing =>
      by_cases hb : jsTrim ing = ""
      · have hall := (jsTrim_eq_empty_iff ing).mp hb
        simp [hb]
        exact hall
      · have hall : ¬ ∀ c ∈ ing.data, isTrimChar c = true :=
          fun hc => hb ((jsTrim_eq_empty_iff ing).mpr hc)
        simp [hb]
        simpa using hall
  · rw [hmain]
    decide

/-! ## Request controller -/

/-- C2: for every query that is empty after trimming, whatever the state and
whatever a request would have returned, `searchMeal` requests no URL and ends
with the error message "Please enter a meal name."; nothing else in the state
changes. -/
theorem searchMeal_blank_query (r : FetchOutcome) (s : UIState)
    (h : jsTrim s.search = "") :
    (searchMeal r s).2 = [] ∧
    (searchMeal r s).1.error = "Please enter a meal name." ∧
    (searchMeal r s).1 = { s with error := "Please enter a meal name." } := by
  simp [searchMeal, h]

/-- The blank-query rule at the query of three spaces, with a response at hand
that would have delivered a meal. -/
theorem searchMeal_blank_query_witness :
    (jsTrim "" = "" ∧ jsTrim "   " = "") ∧
    (searchMeal (.resolved true (some ⟨.list [[("strMeal", .str "Pie")]]⟩))
        { meal := .null, search := "   ", loading := false, error := "" }).2 = [] ∧
    (searchMeal (.resolved true (some ⟨.list [[("strMeal", .str "Pie")]]⟩))
        { meal := .null, search := "   ", loading := false, error := "" }).1.error =
      "Please enter a meal name." ∧
    (searchMeal (.resolved true (some ⟨.list [[("strMeal", .str "Pie")]]⟩))
        { meal := .null, search := "   ", loading := false, error := "" }).1 =
      { meal := .null, search := "   ", loading := false,
        error := "Please enter a meal name." } :=
  ⟨by decide, searchMeal_blank_query _ _ (by decide)⟩

/-- C3: from every state with a non-blank query, a successful response whose
body carries a `meals` list ends `searchMeal` with the list's first element as
the meal, no error message, `loading` false and the query empty; for the body
`{meals: [m]}` the meal is `m`.  Of an empty list the first element is
`undefined`. -/
theorem searchMeal_success (s : UIState) (h : jsTrim s.search ≠ "") :
    (∀ (m : Meal) (rest : List Meal),
      (searchMeal (.resolved true (some ⟨.list (m :: rest)⟩)) s).1 =
        { meal := .obj m, search := "", loading := false, error := "" }) ∧
    (∀ m : Meal,
      (searchMeal (.resolved true (some ⟨.list [m]⟩)) s).1 =
        { meal := .obj m, search := "", loading := false, error := "" }) ∧
    (searchMeal (.resolved true (some ⟨.list []⟩)) s).1 =
      { meal := .undefined, search := "", loading := false, error := "" } := by
  simp [searchMeal, searchMealTry, MealsField.truthy, MealsField.first, h]

/-- The success rule at the query `"pie"`, from a state that shows a meal, is
loading and holds an error message. -/
theorem searchMeal_success_witness :
    jsTrim "pie" ≠ "" ∧
    (∀ (m : Meal) (rest : List Meal),
      (searchMeal (.resolved true (some ⟨.list (m :: rest)⟩))
          { meal := .obj [("strMeal", .str "Soup")], search := "pie", loading := true,
            error := "No meals found for that name." }).1 =
        { meal := .obj m, search := "", loading := false, error := "" }) ∧
    (∀ m : Meal,
      (searchMeal (.resolved true (some ⟨.list [m]⟩))
          { meal := .obj [("strMeal", .str "Soup")], search := "pie", loading := true,
            error := "No meals found for that name." }).1 =
        { meal := .obj m, search := "", loading := false, error := "" }) ∧
    (searchMeal (.resolved true (some ⟨.list []⟩))
        { meal := .obj [("strMeal", .str "Soup")], search := "pie", loading := true,
          error := "No meals found for that name." }).1 =
      { meal := .undefined, search := "", loading := false, error := "" } :=
  ⟨by decide, searchMeal_success _ (by decide)⟩

/-- C4: from every state with a non-blank query, also one that shows a meal, a
successful response with the body `{meals: null}` ends `searchMeal` with no
meal, the message "No meals found for that name.", `loading` false and the
query empty; a body without the key `meals` ends the same way. -/
theorem searchMeal_no_result (s : UIState) (h : jsTrim s.search ≠ "") :
    (searchMeal (.resolved true (some ⟨.null⟩)) s).1 =
      { meal := .null, search := "", loading := false,
        error := "No meals found for that name." } ∧
    (searchMeal (.resolved true (some ⟨.undefined⟩)) s).1 =
      { meal := .null, search := "", loading := false,
        error := "No meals found for that name." } := by
  simp [searchMeal, searchMealTry, MealsField.truthy, h]

/-- The no-result rule at the query `"zzz"`, from a state that shows a meal. -/
theorem searchMeal_no_result_witness :
    jsTrim "zzz" ≠ "" ∧
    (searchMeal (.resolved true (some ⟨.null⟩))
        { meal := .obj [("strMeal", .str "Soup")], search := "zzz", loading := false,
          error := "" }).1 =
      { meal := .null, search := "", loading := false,
        error := "No meals found for that name." } ∧
    (searchMeal (.resolved true (some ⟨.undefined⟩))
        { meal := .obj [("strMeal", .str "Soup")], search := "zzz", loading := false,
          error := "" }).1 =
      { meal := .null, search := "", loading := false,
        error := "No meals found for that name." } :=
  ⟨by decide, searchMeal_no_result _ (by decide)⟩

/-- C5: from every state, when the random-meal request fails (the `fetch` is
rejected, or the response has a non-success status, whatever its body),
`getMeal` ends with no meal, the message "Could not fetch a random meal. Please
try again.", `loading` false and the query as it was. -/
theorem getMeal_failure (r : FetchOutcome) (s : UIState)
    (h : r = .rejected ∨ ∃ json, r = .resolved false json) :
    (getMeal r s).1 =
      { meal := .null, search := s.search, loading := false,
        error := "Could not fetch a random meal. Please try again." } := by
  rcases h with h | ⟨json, h⟩ <;> subst h <;> simp [getMeal, getMealTry]

/-- The failure rule at a non-success response that carries a body, from a state
that shows a meal and holds a query. -/
theorem getMeal_failure_witness :
    (FetchOutcome.resolved false (some ⟨.list [[("strMeal", .str "Pie")]]⟩) = .rejected ∨
      ∃ json, FetchOutcome.resolved false (some ⟨.list [[("strMeal", .str "Pie")]]⟩) =
        .resolved false json) ∧
    (getMeal (.resolved false (some ⟨.list [[("strMeal", .str "Pie")]]⟩))
        { meal := .obj [("strMeal", .str "Soup")], search := "so", loading := false,
          error := "" }).1 =
      { meal := .null, search := "so", loading := false,
        error := "Could not fetch a random meal. Please try again." } :=
  ⟨Or.inr ⟨_, rfl⟩, getMeal_failure _ _ (Or.inr ⟨_, rfl⟩)⟩

/-- C6, as stated, fails: a search attempt with the query `"   "` is rejected by
the empty-query guard (no request, the validation message) and the query held
in the state is still `"   "`, not the empty string. -/
theorem rejected_search_keeps_query :
    jsTrim "   " = "" ∧
    (searchMeal .rejected
        { meal := .null, search := "   ", loading := false, error := "" }).2 = [] ∧
    (searchMeal .rejected
        { meal := .null, search := "   ", loading := false, error := "" }).1.error =
      "Please enter a meal name." ∧
    (searchMeal .rejected
        { meal := .null, search := "   ", loading := false, error := "" }).1.search = "   " ∧
    (searchMeal .rejected
        { meal := .null, search := "   ", loading := false, error := "" }).1.search ≠ "" := by
  decide

/-- C6, amended: after a search attempt that passes the empty-query guard the
query held in the state is the empty string, whatever the request's outcome
(transport or HTTP failure, unreadable body, no result, success); after an
attempt the guard rejects, the query is left as it was typed. -/
theorem searchMeal_query_after (r : FetchOutcome) (s : UIState) :
    (searchMeal r s).1.search = if jsTrim s.search = "" then s.search else "" := by
  by_cases h : jsTrim s.search = "" <;> simp [searchMeal, h]

/-- Every error kind of the taxonomy ends the operation with its message. -/
theorem runOp_error_of_errorKind (op : Operation) (r : FetchOutcome) (s : UIState)
    (k : ErrorKind) (h : errorKind op r s = some k) :
    (runOp op r s).error = errorMessageOf op k := by
  cases op with
  | random =>
    rcases r with _ | ⟨ok, json⟩
    · simp [errorKind] at h
      subst h
      simp [runOp, getMeal, getMealTry, errorMessageOf]
    · cases ok
      · simp [errorKind] at h
        subst h
        simp [runOp, getMeal, getMealTry, errorMessageOf]
      · simp [errorKind] at h
  | search =>
    by_cases hq : jsTrim s.search = ""
    · simp [errorKind, hq] at h
      subst h
      simp [runOp, searchMeal, hq, errorMessageOf]
    · rcases r with _ | ⟨ok, json⟩
      · simp [errorKind, hq] at h
        subst h
        simp [runOp, searchMeal, searchMealTry, hq, errorMessageOf]
      · cases ok
        · simp [errorKind, hq] at h
          subst h
          simp [runOp, searchMeal, searchMealTry, hq, errorMessageOf]
        · rcases json with _ | ⟨⟨meals⟩⟩
          · simp [errorKind, hq] at h
          · cases meals <;> simp [errorKind, hq] at h <;> subst h <;>
              simp [runOp, searchMeal, searchMealTry, MealsField.truthy, hq, errorMessageOf]

/-- No message of the component is the empty string. -/
theorem errorMessageOf_ne_empty (op : Operation) (k : ErrorKind) :
    errorMessageOf op k ≠ "" := by
  cases op <;> cases k <;> decide

/-- An operation ends with no meal unless the empty-query guard stopped it, in
which case the meal is untouched; a successful outcome is excluded by asking
for a non-empty error message. -/
theorem runOp_meal_of_error (op : Operation) (r : FetchOutcome) (s : UIState)
    (h : (runOp op r s).error ≠ "") :
    (runOp op r s).meal =
      if op = .search ∧ jsTrim s.search = "" then s.meal else .null := by
  cases op with
  | random =>
    rcases r with _ | ⟨ok, json⟩
    · simp [runOp, getMeal, getMealTry]
    · cases ok
      · simp [runOp, getMeal, getMealTry]
      · rcases json with _ | ⟨⟨meals⟩⟩
        · simp [runOp, getMeal, getMealTry]
        · rcases meals with _ | _ | ms
          · simp [runOp, getMeal, getMealTry, MealsField.first]
          · simp [runOp, getMeal, getMealTry, MealsField.first]
          · cases ms <;> simp [runOp, getMeal, getMealTry, MealsField.first] at h
  | search =>
    by_cases hq : jsTrim s.search = ""
    · simp [runOp, searchMeal, hq]
    · rcases r with _ | ⟨ok, json⟩
      · simp [runOp, searchMeal, searchMealTry, hq]
      · cases ok
        · simp [runOp, searchMeal, searchMealTry, hq]
        · rcases json with _ | ⟨⟨meals⟩⟩
          · simp [runOp, searchMeal, searchMealTry, hq]
          · rcases meals with _ | _ | ms
            · simp [runOp, searchMeal, searchMealTry, MealsField.truthy, hq]
            · simp [runOp, searchMeal, searchMealTry, MealsField.truthy, hq]
            · cases ms <;>
                simp [runOp, searchMeal, searchMealTry, MealsField.truthy,
                  MealsField.first, hq] at h

/-- C7, as stated, fails: with a meal on display and an empty query, the search
runs into the empty-query validation error, ends with the validation message
set, and the meal shown before is still in the state next to it. -/
theorem rejected_search_keeps_meal :
    errorKind .search .rejected
        { meal := .obj [("strMeal", .str "Pie")], search := "", loading := false,
          error := "" } = some .emptyQuery ∧
    (runOp .search .rejected
        { meal := .obj [("strMeal", .str "Pie")], search := "", loading := false,
          error := "" }).error = "Please enter a meal name." ∧
    (runOp .search .rejected
        { meal := .obj [("strMeal", .str "Pie")], search := "", loading := false,
          error := "" }).meal = .obj [("strMeal", .str "Pie")] ∧
    (runOp .search .rejected
        { meal := .obj [("strMeal", .str "Pie")], search := "", loading := false,
          error := "" }).meal ≠ .null := by
  decide

/-- C7, amended: from every state, an operation that runs into one of the three
error kinds ends with that kind's message set (a non-empty string); after a
transport/HTTP-status failure (of either operation) and after an empty search
result the meal is absent, and after the empty-query validation error the meal
is the one the state held before. -/
theorem runOp_error_state (op : Operation) (r : FetchOutcome) (s : UIState)
    (k : ErrorKind) (h : errorKind op r s = some k) :
    (runOp op r s).error = errorMessageOf op k ∧
    (runOp op r s).error ≠ "" ∧
    (runOp op r s).meal = if k = .emptyQuery then s.meal else .null := by
  have he := runOp_error_of_errorKind op r s k h
  have hne : (runOp op r s).error ≠ "" := by
    rw [he]
    exact errorMessageOf_ne_empty op k
  refine ⟨he, hne, ?_⟩
  rw [runOp_meal_of_error op r s hne]
  cases op with
  | random =>
    have hk : k ≠ .emptyQuery := by
      rintro rfl
      rcases r with _ | ⟨ok, json⟩
      · simp [errorKind] at h
      · cases ok <;> simp [errorKind] at h
    simp [hk]
  | search =>
    by_cases hq : jsTrim s.search = ""
    · simp [errorKind, hq] at h
      subst h
      simp [hq]
    · have hk : k ≠ .emptyQuery := by
        rintro rfl
        rcases r with _ | ⟨ok, json⟩
        · simp [errorKind, hq] at h
        · cases ok
          · simp [errorKind, hq] at h
          · rcases json with _ | ⟨⟨meals⟩⟩
            · simp [errorKind, hq] at h
            · cases meals <;> simp [errorKind, hq] at h
      simp [hq, hk]

/-- The error rule at a search for `"zzz"` that finds nothing, from a state that
shows a meal. -/
theorem runOp_error_state_witness :
    errorKind .search (.resolved true (some ⟨.null⟩))
        { meal := .obj [("strMeal", .str "Pie")], search := "zzz", loading := false,
          error := "" } = some .emptyResult ∧
    (runOp .search (.resolved true (some ⟨.null⟩))
        { meal := .obj [("strMeal", .str "Pie")], search := "zzz", loading := false,
          error := "" }).error = errorMessageOf .search .emptyResult ∧
    (runOp .search (.resolved true (some ⟨.null⟩))
        { meal := .obj [("strMeal", .str "Pie")], search := "zzz", loading := false,
          error := "" }).error ≠ "" ∧
    (runOp .search (.resolved true (some ⟨.null⟩))
        { meal := .obj [("strMeal", .str "Pie")], search := "zzz", loading := false,
          error := "" }).meal =
      if ErrorKind.emptyResult = .emptyQuery then .obj [("strMeal", .str "Pie")] else .null :=
  ⟨by decide, runOp_error_state _ _ _ _ (by decide)⟩

/-- C10: from every state, a random-meal response that is successful at the
HTTP level with the body `{meals: null}` ends `getMeal` exactly as a rejected
`fetch` does, with no meal, the message "Could not fetch a random meal. Please
try again.", `loading` false and the query as it was (indexing `null` throws
inside the `try` block); with the body `{meals: []}` it ends with the meal
`undefined`, an empty error message and `loading` false. -/
theorem getMeal_null_body_and_empty_list (s : UIState) :
    (getMeal (.resolved true (some ⟨.null⟩)) s).1 =
      { meal := .null, search := s.search, loading := false,
        error := "Could not fetch a random meal. Please try again." } ∧
    (getMeal (.resolved true (some ⟨.null⟩)) s).1 = (getMeal .rejected s).1 ∧
    (getMeal (.resolved true (some ⟨.list []⟩)) s).1 =
      { meal := .undefined, search := s.search, loading := false, error := "" } := by
  simp [getMeal, getMealTry, MealsField.first]

/-! ## View -/

/-- C9: the view is a function of the state, and in every state the loading
indicator is shown iff `loading` is true; the error text is shown iff the error
message is non-empty, whatever `loading` and `meal` are, and it is the message;
the meal block is shown iff a meal is present and `loading` is false, and it
then holds the meal's name, thumbnail and instructions and the list
`getIngredients` returns for the meal. -/
theorem render_spec (s : UIState) :
    ((render s).loadingText.isSome = true ↔ s.loading = true) ∧
    ((render s).loadingText = if s.loading = true then some "Fetching meal..." else none) ∧
    ((render s).errorText.isSome = true ↔ s.error ≠ "") ∧
    ((render s).errorText = if s.error = "" then none else some s.error) ∧
    ((render s).mealBlock.isSome = true ↔ (∃ m, s.meal = .obj m) ∧ s.loading = false) ∧
    (∀ m, s.meal = .obj m → s.loading = false →
      ∃ b, (render s).mealBlock = some b ∧
        b.name = getProp m "strMeal" ∧
        b.thumb = getProp m "strMealThumb" ∧
        b.ingredients = getIngredients m ∧
        b.instructions = getProp m "strInstructions") := by
  refine ⟨?_, ?_, ?_, ?_, ?_, ?_⟩
  · cases hl : s.loading <;> simp [render, hl]
  · rfl
  · by_cases he : s.error = "" <;> simp [render, he]
  · by_cases he : s.error = "" <;> simp [render, he]
  · cases hl : s.loading <;> cases hm : s.meal <;> simp [render, hl, hm]
  · intro m hm hl
    exact ⟨renderMeal m, by simp [render, hl, hm], rfl, rfl, rfl, rfl⟩

/-! ## Embedded player -/

/-- A string without an occurrence of the separator does not start with it. -/
theorem isPrefixOf_false_of_not_infix (l : List Char)
    (h : ¬ (['v', '='] <:+: l)) : List.isPrefixOf ['v', '='] l = false := by
  cases hp : List.isPrefixOf ['v', '='] l with
  | false => rfl
  | true => exact absurd (List.isPrefixOf_iff_prefix.mp hp).isInfix h

/-- Without an occurrence of the separator the scan returns one piece: what it
held, followed by the whole remainder. -/
theorem splitGo_none (l : List Char) :
    ∀ seg : List Char, ¬ (['v', '='] <:+: l) →
      splitGo ['v', '='] 0 l seg = [seg.reverse ++ l] := by
  induction l with
  | nil => intro seg _; simp [splitGo]
  | cons c rest ih =>
    intro seg h
    have h1 : ¬ (['v', '='] <:+: rest) := fun hr => h (List.infix_cons hr)
    have h2 := isPrefixOf_false_of_not_infix (c :: rest) h
    rw [splitGo, h2]
    simp [ih (c :: seg) h1]

/-- At the first occurrence of the separator the scan closes the current piece
and goes on after the separator with an empty one. -/
theorem splitGo_first (pre : List Char) :
    ∀ (seg tail : List Char), ¬ (['v', '='] <:+: pre) →
      splitGo ['v', '='] 0 (pre ++ 'v' :: '=' :: tail) seg =
        (seg.reverse ++ pre) :: splitGo ['v', '='] 0 tail [] := by
  induction pre with
  | nil => intro seg tail _; simp [splitGo]
  | cons c rest ih =>
    intro seg tail h
    have h1 : ¬ (['v', '='] <:+: rest) := fun hr => h (List.infix_cons hr)
    have h2 : List.isPrefixOf ['v', '='] (c :: (rest ++ 'v' :: '=' :: tail)) = false := by
      cases rest with
      | nil => simp [List.isPrefixOf]
      | cons d rest2 =>
        have h3 := isPrefixOf_false_of_not_infix (c :: d :: rest2) h
        simp only [List.isPrefixOf, List.cons_append] at h3 ⊢
        exact h3
    rw [List.cons_append, splitGo, h2]
    simp [ih (c :: seg) tail h1]

/-- The pieces of a string, as character lists. -/
theorem jsSplit_v (s : String) :
    jsSplit s "v=" = (splitGo ['v', '='] 0 s.data []).map String.mk := by
  simp [jsSplit]

/-- C8, as stated, fails: in `"https://www.youtube.com/watch?v=abc&v=def"` the
first `"v="` follows `"https://www.youtube.com/watch?"`, everything after it is
`"abc&v=def"`, and the id placed in the embed URL is `"abc&"`. -/
theorem embedSrc_second_separator :
    "https://www.youtube.com/watch?v=abc&v=def" ≠ "" ∧
    "https://www.youtube.com/watch?v=abc&v=def" =
      "https://www.youtube.com/watch?" ++ "v=" ++ "abc&v=def" ∧
    ¬ ("v=".data <:+: "https://www.youtube.com/watch?".data) ∧
    playerId "https://www.youtube.com/watch?v=abc&v=def" = .str "abc&" ∧
    embedSrc "https://www.youtube.com/watch?v=abc&v=def" =
      "https://www.youtube.com/embed/abc&" ∧
    embedSrc "https://www.youtube.com/watch?v=abc&v=def" ≠
      "https://www.youtube.com/embed/" ++ "abc&v=def" := by
  decide

/-- C8, amended: for every video reference that contains `"v="`, the player id
placed in the embed URL is the substring from just past the first occurrence of
`"v="` up to the next occurrence of `"v="`, or up to the end of the reference
when `"v="` does not occur again; the meal block of a meal with such a
reference shows the player with that id. -/
theorem playerId_between_separators (pre mid : String)
    (hpre : ¬ ("v=".data <:+: pre.data)) (hmid : ¬ ("v=".data <:+: mid.data)) :
    (playerId (pre ++ "v=" ++ mid) = .str mid ∧
      embedSrc (pre ++ "v=" ++ mid) = "https://www.youtube.com/embed/" ++ mid) ∧
    (∀ rest : String,
      playerId (pre ++ "v=" ++ mid ++ "v=" ++ rest) = .str mid ∧
      embedSrc (pre ++ "v=" ++ mid ++ "v=" ++ rest) =
        "https://www.youtube.com/embed/" ++ mid) ∧
    ∀ (m : Meal) (tail : String),
      (tail = mid ∨ ∃ rest : String, tail = mid ++ "v=" ++ rest) →
      getProp m "strYoutube" = .str (pre ++ "v=" ++ tail) →
      (renderMeal m).videoSrc = some ("https://www.youtube.com/embed/" ++ mid) := by
  have hpre2 : ¬ (['v', '='] <:+: pre.data) := hpre
  have hmid2 : ¬ (['v', '='] <:+: mid.data) := hmid
  have hv : ("v=" : String).data = ['v', '='] := rfl
  have h1 : playerId (pre ++ "v=" ++ mid) = .str mid := by
    unfold playerId
    rw [jsSplit_v]
    simp only [String.data_append, hv, List.append_assoc, List.cons_append, List.nil_append]
    rw [splitGo_first pre.data [] mid.data hpre2, splitGo_none mid.data [] hmid2]
    simp
  have h2 : ∀ rest : String,
      playerId (pre ++ "v=" ++ mid ++ "v=" ++ rest) = .str mid := by
    intro rest
    unfold playerId
    rw [jsSplit_v]
    simp only [String.data_append, hv, List.append_assoc, List.cons_append, List.nil_append]
    rw [splitGo_first pre.data [] _ hpre2, splitGo_first mid.data [] rest.data hmid2]
    simp
  have h3 : embedSrc (pre ++ "v=" ++ mid) = "https://www.youtube.com/embed/" ++ mid := by
    simp [embedSrc, h1, JSVal.toStr]
  have h4 : ∀ rest : String, embedSrc (pre ++ "v=" ++ mid ++ "v=" ++ rest) =
      "https://www.youtube.com/embed/" ++ mid := by
    intro rest
    simp [embedSrc, h2 rest, JSVal.toStr]
  have hne : ∀ tail : String, pre ++ "v=" ++ tail ≠ "" := by
    intro tail h0
    have hd := congrArg String.data h0
    simp [String.data_append, hv] at hd
  refine ⟨⟨h1, h3⟩, fun rest => ⟨h2 rest, h4 rest⟩, ?_⟩
  intro m tail htail hy
  have hsrc : embedSrc (pre ++ "v=" ++ tail) = "https://www.youtube.com/embed/" ++ mid := by
    rcases htail with rfl | ⟨rest, rfl⟩
    · exact h3
    · have h5 := h4 rest
      simpa [String.append_assoc] using h5
  simp [renderMeal, hy, JSVal.truthy, JSVal.toStr, hne tail, hsrc]

/-- The player-id rule at the prefix `"https://www.youtube.com/watch?"` and the
id `"abc&"`. -/
theorem playerId_between_separators_witness :
    (¬ ("v=".data <:+: "https://www.youtube.com/watch?".data) ∧
      ¬ ("v=".data <:+: "abc&".data)) ∧
    (playerId ("https://www.youtube.com/watch?" ++ "v=" ++ "abc&") = .str "abc&" ∧
      embedSrc ("https://www.youtube.com/watch?" ++ "v=" ++ "abc&") =
        "https://www.youtube.com/embed/" ++ "abc&") ∧
    (∀ rest : String,
      playerId ("https://www.youtube.com/watch?" ++ "v=" ++ "abc&" ++ "v=" ++ rest) =
        .str "abc&" ∧
      embedSrc ("https://www.youtube.com/watch?" ++ "v=" ++ "abc&" ++ "v=" ++ rest) =
        "https://www.youtube.com/embed/" ++ "abc&") ∧
    ∀ (m : Meal) (tail : String),
      (tail = "abc&" ∨ ∃ rest : String, tail = "abc&" ++ "v=" ++ rest) →
      getProp m "strYoutube" = .str ("https://www.youtube.com/watch?" ++ "v=" ++ tail) →
      (renderMeal m).videoSrc = some ("https://www.youtube.com/embed/" ++ "abc&") :=
  ⟨by decide, playerId_between_separators _ _ (by decide) (by decide)⟩

end MealFinder
